import Mathlib

/-!
Verification of the leetloop spaced-repetition / pacing / mission core.

Shallow embedding of the Python sources under `src/api/app`:
dates and timestamps are modelled as integers (day numbers resp. abstract
instants), Python floats as rationals, Python dicts with optional keys as
structures with `Option` fields, and database tables as explicit lists of
rows.  Python truthiness (`a or b`, `if not x`) is modelled by the
`truthyStr` / `truthyInt` helpers, and `int(...)` truncation by `ratTrunc`.
-/

/-- Python `round(x, 1)` uses round-half-to-even on the scaled value.
This is the integer-valued round-half-even. -/
def roundHalfEven (q : ℚ) : ℤ :=
  let f := ⌊q⌋
  let r := q - (f : ℚ)
  if r < 1/2 then f
  else if 1/2 < r then f + 1
  else if Even f then f else f + 1

/-- Python `int(x)` on a float/rational: truncation toward zero. -/
def ratTrunc (q : ℚ) : ℤ :=
  if 0 ≤ q then ⌊q⌋ else ⌈q⌉

/-- Python `round(x, 1)`: one decimal digit, half-to-even. -/
def pyRound1 (q : ℚ) : ℚ := (roundHalfEven (10 * q) : ℚ) / 10

/-- Python truthiness of an optional string: `None` and `""` are falsy. -/
def truthyStr : Option String → Option String
  | some s => if s = "" then none else some s
  | none => none

/-- Python truthiness of an optional integer: `None` and `0` are falsy. -/
def truthyInt : Option ℤ → Option ℤ
  | some n => if n = 0 then none else some n
  | none => none

/-- Python `a or b` on optional strings: yields `b` unchanged when `a` is falsy. -/
def pyOrStr (a b : Option String) : Option String :=
  match truthyStr a with
  | some s => some s
  | none => b

/-- Python `slug.replace("-", " ").title()` as used on problem slugs:
words are capitalized (first letter upper, rest lower). -/
def titleize (s : String) : String :=
  String.intercalate " " (((s.replace "-" " ").splitOn " ").map
    (fun w => w.toLower.capitalize))

namespace Objectives

/-!
Embedding of `calculate_pace_status` from `src/api/app/routers/objectives.py`
(lines 27-94).  Dates (`today`, `started_at`, `target_deadline`) are day
numbers, so `(a - b).days` becomes `a - b`.
-/

/-- Status classification of lines 59-66 of objectives.py, as a function of
the (unrounded) pace percentage. -/
def paceStatusOf (pace_percentage : ℚ) : String :=
  if pace_percentage ≥ 110 then "ahead"
  else if pace_percentage ≥ 90 then "on_track"
  else if pace_percentage ≥ 70 then "behind"
  else "critical"

/-- Line 46: `days_elapsed = max(1, (today - started_at).days)`. -/
def days_elapsed (today started_at : ℤ) : ℤ := max 1 (today - started_at)

/-- Line 47: `days_total = max(1, (target_deadline - started_at).days)`. -/
def days_total (target_deadline started_at : ℤ) : ℤ :=
  max 1 (target_deadline - started_at)

/-- Line 48: `days_remaining = max(0, (target_deadline - today).days)`. -/
def days_remaining (target_deadline today : ℤ) : ℤ :=
  max 0 (target_deadline - today)

/-- Lines 51-52: `weeks_total = days_total / 7.0`;
`total_problems_target = int(weekly_target * weeks_total)`. -/
def total_problems_target (weekly_target dTotal : ℤ) : ℤ :=
  ratTrunc ((weekly_target : ℚ) * ((dTotal : ℚ) / 7))

/-- Line 53: `expected_problems = int((days_elapsed / days_total) * total_problems_target)`. -/
def expected_problems (dElapsed dTotal tTarget : ℤ) : ℤ :=
  ratTrunc (((dElapsed : ℚ) / (dTotal : ℚ)) * (tTarget : ℚ))

/-- Line 56: `pace_percentage = (cumulative_problems / max(1, expected_problems)) * 100`. -/
def pace_percentage_of (cumulative expected : ℤ) : ℚ :=
  ((cumulative : ℚ) / ((max 1 expected : ℤ) : ℚ)) * 100

/-- Return record of `calculate_pace_status` (the `PaceStatus` schema). -/
structure PaceStatus where
  status : String
  problems_this_week : ℤ
  weekly_target : ℤ
  problems_behind : ℤ
  pace_percentage : ℚ
  projected_completion_date : Option ℤ
  daily_rate_needed : ℚ
deriving DecidableEq

/-- Embedding of `calculate_pace_status` (objectives.py lines 27-94).  The
objective row fields `started_at`, `target_deadline`,
`weekly_problem_target` are passed positionally; `today` is the injected
clock. -/
def calculate_pace_status (started_at target_deadline weekly_target : ℤ)
    (today cumulative_problems problems_this_week : ℤ) : PaceStatus :=
  let dElapsed := days_elapsed today started_at
  let dTotal := days_total target_deadline started_at
  let dRemaining := days_remaining target_deadline today
  let tTarget := total_problems_target weekly_target dTotal
  let expected := expected_problems dElapsed dTotal tTarget
  let pacePct := pace_percentage_of cumulative_problems expected
  let status := paceStatusOf pacePct
  let problems_behind := max 0 (expected - cumulative_problems)
  let problems_remaining := tTarget - cumulative_problems
  let daily_rate_needed : ℚ :=
    if 0 < dRemaining then (problems_remaining : ℚ) / ((max 1 dRemaining : ℤ) : ℚ)
    else 0
  let projected_completion : Option ℤ :=
    if 0 < cumulative_problems ∧ 0 < dElapsed then
      let daily_rate : ℚ := (cumulative_problems : ℚ) / (dElapsed : ℚ)
      if 0 < daily_rate then
        some (started_at + ratTrunc ((tTarget : ℚ) / daily_rate))
      else none
    else none
  { status := status
    problems_this_week := problems_this_week
    weekly_target := weekly_target
    problems_behind := problems_behind
    pace_percentage := pyRound1 pacePct
    projected_completion_date := projected_completion
    daily_rate_needed := pyRound1 daily_rate_needed }

end Objectives

namespace IntervalModel

/-- Modelled from the spec: the spaced-repetition interval update is
implemented by SQL RPC functions (`complete_review`,
`complete_language_review`, `complete_system_design_review`) that are not
part of the Python sources; `src/api/app/routers/reviews.py` (lines 71-110)
only invokes them.  Per the spec (section 4.1 and the docstring at
reviews.py lines 77-82): on success the next interval is
`min(current_interval_days * 2, 30)`, on failure it is `1`. -/
def advance (success : Bool) (current_interval_days : ℤ) : ℤ :=
  if success then min (current_interval_days * 2) 30 else 1

/-- Modelled from the spec: `next_review = now + next_interval_days days`. -/
def advance_next_review (now : ℤ) (success : Bool) (current_interval_days : ℤ) : ℤ :=
  now + advance success current_interval_days

/-- Interval trajectory under a sequence of consecutive successful reviews. -/
def successSeq (i0 : ℤ) : ℕ → ℤ
  | 0 => i0
  | n + 1 => advance true (successSeq i0 n)

end IntervalModel

namespace Reviews

/-- Row of the `review_queue` table (columns used by the due query). -/
structure ReviewRow where
  problem_slug : String
  problem_title : Option String
  reason : Option String
  next_review : ℤ
  interval_days : ℤ
  priority : ℤ
deriving DecidableEq

/-- Ordering used by the due query: `ORDER BY priority DESC, next_review ASC`
(`.order("priority", desc=True).order("next_review")` in
`recommendation_engine.py` lines 100-101 and `reviews.py` lines 41-42). -/
def dueLE (a b : ReviewRow) : Prop :=
  b.priority < a.priority ∨ (a.priority = b.priority ∧ a.next_review ≤ b.next_review)

instance : DecidableRel dueLE := fun a b =>
  inferInstanceAs (Decidable (_ ∨ _))

instance : IsTotal ReviewRow dueLE where
  total a b := by
    by_cases h : a.priority = b.priority
    · rcases le_total a.next_review b.next_review with h2 | h2
      · exact Or.inl (Or.inr ⟨h, h2⟩)
      · exact Or.inr (Or.inr ⟨h.symm, h2⟩)
    · rcases lt_or_gt_of_ne h with h2 | h2
      · exact Or.inr (Or.inl h2)
      · exact Or.inl (Or.inl h2)

instance : IsTrans ReviewRow dueLE where
  trans a b c hab hbc := by
    rcases hab with h1 | ⟨h1, h1n⟩ <;> rcases hbc with h2 | ⟨h2, h2n⟩
    · exact Or.inl (h2.trans h1)
    · exact Or.inl (h2 ▸ h1)
    · exact Or.inl (h1 ▸ h2)
    · exact Or.inr ⟨h1.trans h2, h1n.trans h2n⟩

/-- The due query over the `review_queue` table, as issued by the direct
query in `recommendation_engine.py` `_get_due_reviews` (lines 95-104):
keep rows with `next_review <= now`, order by priority descending then
next_review ascending, apply the limit.  The `get_due_reviews` SQL RPC
called by `reviews.py` (lines 32-35) is not under the Python sources; the
spec gives it the same filter and ordering contract. -/
def get_due_reviews (items : List ReviewRow) (now : ℤ) (limit : ℕ) : List ReviewRow :=
  (List.insertionSort dueLE (items.filter (fun r => r.next_review ≤ now))).take limit

end Reviews

namespace RecommendationEngine

/-- Columns of a `submissions` row used by the recommendation engine. -/
structure Submission where
  problem_slug : String
  problem_title : Option String
  difficulty : Option String
  tags : List String
deriving DecidableEq

/-- Row of `skill_scores` as read by `_get_weak_skill_problems`. -/
structure SkillRow where
  tag : String
  score : ℚ
deriving DecidableEq

/-- The `RecommendedProblem` schema. -/
structure RecommendedProblem where
  problem_slug : String
  problem_title : Option String
  difficulty : Option String
  tags : List String
  reason : String
  priority : ℚ
  source : String
deriving DecidableEq

/-- Recommendation built from a due review
(`recommendation_engine.py` lines 34-44). -/
def mkReviewRec (r : Reviews.ReviewRow) : RecommendedProblem :=
  { problem_slug := r.problem_slug
    problem_title := r.problem_title
    difficulty := none
    tags := []
    reason := "Review needed: " ++ r.reason.getD "Previously failed"
    priority := 100 - (r.interval_days : ℚ)
    source := "review_queue" }

/-- Recommendation built from a weak-skill failed submission
(lines 148-158). -/
def mkWeakRec (s : SkillRow) (p : Submission) : RecommendedProblem :=
  { problem_slug := p.problem_slug
    problem_title := p.problem_title
    difficulty := p.difficulty
    tags := p.tags
    reason := "Strengthen weak area: " ++ s.tag ++ " (score: " ++
      toString (roundHalfEven s.score) ++ ")"
    priority := 70 - s.score
    source := "weak_skill" }

/-- Loop body of `_get_weak_skill_problems` (lines 126-162): skip skills
with score at least 70, look up the most recent failed submission tagged
with the skill, append it unless its slug is already in the local list, and
stop once the local list reaches the limit (the limit check is skipped by
the `continue` on strong skills). -/
def weakSkillLoop (latestFailedByTag : String → Option Submission) (limit : ℕ) :
    List SkillRow → List RecommendedProblem → List RecommendedProblem
  | [], acc => acc
  | s :: rest, acc =>
    if (70 : ℚ) ≤ s.score then
      weakSkillLoop latestFailedByTag limit rest acc
    else
      let acc2 :=
        match latestFailedByTag s.tag with
        | none => acc
        | some prob =>
          if acc.any (fun r => r.problem_slug = prob.problem_slug) then acc
          else acc ++ [mkWeakRec s prob]
      if limit ≤ acc2.length then acc2
      else weakSkillLoop latestFailedByTag limit rest acc2

/-- Embedding of `_get_weak_skill_problems` (lines 107-163).  `weakSkills`
is the result of the `skill_scores` query (ordered by score ascending,
limit 3) and `latestFailedByTag` the result of the per-tag failed
submission query (limit 1). -/
def get_weak_skill_problems (weakSkills : List SkillRow)
    (latestFailedByTag : String → Option Submission) (limit : ℕ) :
    List RecommendedProblem :=
  weakSkillLoop latestFailedByTag limit weakSkills []

/-- Accepted/total counts for one difficulty. -/
structure DiffCount where
  accepted : ℕ
  total : ℕ
deriving DecidableEq

/-- Submission counts by difficulty (`stats_by_difficulty`). -/
structure DiffStats where
  easy : DiffCount
  medium : DiffCount
  hard : DiffCount
deriving DecidableEq

/-- Embedding of `_determine_progression_difficulty` (lines 233-256). -/
def determine_progression_difficulty (stats : DiffStats) : String :=
  let easy_rate : ℚ :=
    if 0 < stats.easy.total then (stats.easy.accepted : ℚ) / (stats.easy.total : ℚ) else 0
  let medium_rate : ℚ :=
    if 0 < stats.medium.total then (stats.medium.accepted : ℚ) / (stats.medium.total : ℚ) else 0
  if easy_rate < 7/10 ∨ stats.easy.total < 10 then "Easy"
  else if medium_rate < 1/2 ∨ stats.medium.total < 5 then "Medium"
  else "Hard"

/-- Recommendation built from a progression candidate (lines 219-229). -/
def mkProgRec (diff : String) (p : Submission) : RecommendedProblem :=
  { problem_slug := p.problem_slug
    problem_title := p.problem_title
    difficulty := p.difficulty
    tags := p.tags
    reason := "Continue " ++ diff ++ " difficulty progression"
    priority := 30
    source := "progression" }

/-- Loop of `_get_progression_problems` over the attempted-but-unsolved
query result, with the `seen_slugs` set (lines 213-229). -/
def progressionLoop (diff : String) : List Submission → List String → List RecommendedProblem
  | [], _ => []
  | p :: rest, seen =>
    if p.problem_slug ∈ seen then progressionLoop diff rest seen
    else mkProgRec diff p :: progressionLoop diff rest (p.problem_slug :: seen)

/-- Embedding of `_get_progression_problems` (lines 165-231).  `attemptedAt`
maps a difficulty to the (recency-ordered) attempted-but-unsolved rows of
that difficulty; the query applies `.limit(limit)`. -/
def get_progression_problems (stats : DiffStats)
    (attemptedAt : String → List Submission) (limit : ℕ) :
    List RecommendedProblem :=
  let diff := determine_progression_difficulty stats
  progressionLoop diff ((attemptedAt diff).take limit) []

/-- Final sort key: `recommendations.sort(key=lambda x: x.priority, reverse=True)`
(line 63); Python sort is stable, as is insertion sort. -/
def priGE (a b : RecommendedProblem) : Prop := b.priority ≤ a.priority

instance : DecidableRel priGE := fun a b =>
  inferInstanceAs (Decidable (_ ≤ _))

instance : IsTotal RecommendedProblem priGE where
  total a b := le_total b.priority a.priority

instance : IsTrans RecommendedProblem priGE where
  trans _ _ _ hab hbc := le_trans hbc hab

/-- Embedding of `get_recommendations` (recommendation_engine.py lines
23-64): due reviews first, then weak-skill problems if below the limit,
then progression problems if still below the limit; finally a stable sort
by priority descending and truncation to the limit. -/
def get_recommendations (dueReviews : List Reviews.ReviewRow) (now : ℤ)
    (weakSkills : List SkillRow) (latestFailedByTag : String → Option Submission)
    (stats : DiffStats) (attemptedAt : String → List Submission)
    (limit : ℕ) : List RecommendedProblem :=
  let recs1 := (Reviews.get_due_reviews dueReviews now limit).map mkReviewRec
  let recs2 :=
    if recs1.length < limit then
      recs1 ++ get_weak_skill_problems weakSkills latestFailedByTag (limit - recs1.length)
    else recs1
  let recs3 :=
    if recs2.length < limit then
      recs2 ++ get_progression_problems stats attemptedAt (limit - recs2.length)
    else recs2
  (List.insertionSort priGE recs3).take limit

end RecommendationEngine

namespace MissionGenerator

/-- One entry of the generator response's problem list, in either shape
(canonical `problems` entries carry `problem_id`/`priority`/`source`,
legacy `main_quests` entries carry `slug`/`order`/`category`).  `none`
models an absent key. -/
structure RawEntry where
  problem_id : Option String
  slug : Option String
  title : Option String
  difficulty : Option String
  source : Option String
  category : Option String
  reasoning : Option String
  priority : Option ℤ
  order : Option ℤ
  skills : Option (List String)
  estimated_difficulty : Option String
deriving DecidableEq

/-- Parsed generator response (the JSON fields read by
`_build_mission_data`).  An absent `problems`/`main_quests` key is the
empty list, matching `response.get("problems", [])`. -/
structure GenResponse where
  daily_objective : Option String
  problems : List RawEntry
  main_quests : List RawEntry
  side_quests : List RawEntry
  balance_explanation : Option String
  pacing_status : Option String
  pacing_note : Option String
deriving DecidableEq

/-- Path problem details gathered in `_build_mission_data` (lines 580-589):
`problem_details[slug] = {title, difficulty, category}`. -/
structure PDetail where
  title : String
  difficulty : Option String
  category : String
deriving DecidableEq

/-- One normalized mission problem as built at lines 606-616 and persisted
field-for-field by `_save_mission_problems` (lines 744-757). -/
structure MissionProblem where
  problem_id : String
  problem_title : String
  difficulty : Option String
  source : String
  reasoning : String
  priority : ℤ
  skills : List String
  estimated_difficulty : Option String
  completed : Bool
deriving DecidableEq

/-- Normalization of one raw entry at 0-based index `i`
(mission_generator.py lines 600-616).  Returns `none` when the entry is
skipped (`problem_id = p.get("problem_id") or p.get("slug")` falsy). -/
def buildEntry (problem_details : String → Option PDetail) (i : ℕ) (p : RawEntry) :
    Option MissionProblem :=
  match truthyStr (pyOrStr p.problem_id p.slug) with
  | none => none
  | some problem_id =>
    let details := problem_details problem_id
    some
      { problem_id := problem_id
        problem_title :=
          match truthyStr (details.map (fun d => d.title)) with
          | some t => t
          | none =>
            match truthyStr p.title with
            | some t => t
            | none => titleize problem_id
        difficulty := pyOrStr (details.bind (fun d => d.difficulty)) p.difficulty
        source :=
          match truthyStr p.source with
          | some s => s
          | none => p.category.getD "path"
        reasoning := p.reasoning.getD "Selected for your practice"
        priority :=
          match truthyInt p.priority with
          | some v => v
          | none =>
            match truthyInt p.order with
            | some v => v
            | none => (i : ℤ) + 1
        skills :=
          match p.skills with
          | some l => l
          | none =>
            match truthyStr p.category with
            | some c => [c]
            | none => []
        estimated_difficulty := pyOrStr p.estimated_difficulty p.difficulty
        completed := false }

/-- Raw problem list selection (lines 594-598): use `problems`, and fall
back to `main_quests` when `problems` is empty and `main_quests` is not. -/
def rawProblems (resp : GenResponse) : List RawEntry :=
  if resp.problems = [] ∧ resp.main_quests ≠ [] then resp.main_quests
  else resp.problems

/-- The normalized problem list of `_build_mission_data`
(lines 592-616): enumerate the raw entries and keep the built ones. -/
def buildProblems (problem_details : String → Option PDetail) (resp : GenResponse) :
    List MissionProblem :=
  (rawProblems resp).enum.filterMap (fun ip => buildEntry problem_details ip.1 ip.2)

/-- The persisted mission state for one (user, date): the fields of the
`daily_missions` row (plus its `mission_problems` children) that the
regeneration and enrichment logic reads. -/
structure StoredMission where
  daily_objective : String
  balance_explanation : Option String
  pacing_status : Option String
  pacing_note : Option String
  problems : List MissionProblem
  main_quests : List RawEntry
  side_quests : List RawEntry
  regenerated_count : ℕ
deriving DecidableEq

/-- Embedding of `_build_mission_data` (lines 568-646): normalize the
response's problem list and build the mission row, with
`regenerated_count = existing + 1` on regeneration and `0` on first
generation; the row and its problems are then saved. -/
def build_mission_data (gemini_response : GenResponse)
    (problem_details : String → Option PDetail)
    (existing : Option StoredMission) : StoredMission :=
  { daily_objective := gemini_response.daily_objective.getD "Focus on practice"
    balance_explanation := gemini_response.balance_explanation
    pacing_status := gemini_response.pacing_status
    pacing_note := gemini_response.pacing_note
    problems := buildProblems problem_details gemini_response
    main_quests := gemini_response.main_quests
    side_quests := gemini_response.side_quests
    regenerated_count :=
      match existing with
      | some m => m.regenerated_count + 1
      | none => 0 }

/-- The enriched response of `_enrich_mission` (lines 762-834), restricted
to the fields the claims read. -/
structure EnrichedMission where
  daily_objective : String
  problems : List MissionProblem
  completed_count : ℕ
  total_completed_today : ℕ
  can_regenerate : Bool
  main_quests : List RawEntry
  side_quests : List RawEntry
deriving DecidableEq

/-- Embedding of `_enrich_mission`: mark problems accepted today as
completed and compute `can_regenerate = regenerated_count < 3`
(line 822).  `completedToday` is the set (as a deduplicated list) of
problem slugs accepted on the mission date. -/
def enrich_mission (m : StoredMission) (completedToday : List String) : EnrichedMission :=
  let problems := m.problems.map
    (fun p => if p.problem_id ∈ completedToday then { p with completed := true } else p)
  { daily_objective := m.daily_objective
    problems := problems
    completed_count := (problems.filter (fun p => p.completed)).length
    total_completed_today := completedToday.length
    can_regenerate := decide (m.regenerated_count < 3)
    main_quests := m.main_quests
    side_quests := m.side_quests }

/-- Embedding of `generate_mission` (lines 36-84) as a state transition:
given the existing mission for the (user, date) if any, the
`force_regenerate` flag and the generator response, return the enriched
response together with the newly saved mission (`none` when nothing is
written). -/
def generate_mission (existing : Option StoredMission) (force_regenerate : Bool)
    (gemini_response : GenResponse) (problem_details : String → Option PDetail)
    (completedToday : List String) : EnrichedMission × Option StoredMission :=
  match existing, force_regenerate with
  | some m, false => (enrich_mission m completedToday, none)
  | some m, true =>
    if 3 ≤ m.regenerated_count then
      ({ enrich_mission m completedToday with can_regenerate := false }, none)
    else
      let nm := build_mission_data gemini_response problem_details (some m)
      (enrich_mission nm completedToday, some nm)
  | none, _ =>
    let nm := build_mission_data gemini_response problem_details none
    (enrich_mission nm completedToday, some nm)

/-- An available path problem as assembled in `_call_gemini`
(lines 349-362): slug, title, difficulty (possibly absent in the path
data, propagated by `prob.get("difficulty")`), category. -/
structure AvailProb where
  slug : String
  title : String
  difficulty : Option String
  category : String
deriving DecidableEq

/-- A due-review problem as assembled in `_call_gemini` (lines 365-368). -/
structure ReviewProb where
  slug : String
  reason : Option String
deriving DecidableEq

/-- A context skill score entry (lines 235-241). -/
structure SkillCtx where
  domain : String
  score : ℚ
  status : String
deriving DecidableEq

/-- The part of the generation context read by `_fallback_mission`. -/
structure FallbackCtx where
  skill_scores : List SkillCtx
  days_until_deadline : Option ℤ
deriving DecidableEq

/-- Review entry of the fallback mission (lines 517-525): 0-based index
`i`, priority `i + 1`. -/
def fallback_review_entry (i : ℕ) (r : ReviewProb) : RawEntry :=
  { problem_id := some r.slug
    slug := none
    title := none
    difficulty := none
    source := some "review"
    category := none
    reasoning := some (r.reason.getD "Due for spaced repetition review")
    priority := some ((i : ℤ) + 1)
    order := none
    skills := some []
    estimated_difficulty := some "medium" }

/-- Path entry of the fallback mission (lines 529-537), where `nprob` is
the number of problems already collected (`len(problems)`), so the
priority is `nprob + 1`.  The entry dict always carries the `difficulty`
key, so `p.get("difficulty", "medium")` returns its value even when that
value is `None`, and `.lower()` then raises `AttributeError`: this is the
`none` result. -/
def fallback_path_entry (nprob : ℕ) (p : AvailProb) : Option RawEntry :=
  match p.difficulty with
  | none => none
  | some d =>
    some
      { problem_id := some p.slug
        slug := none
        title := none
        difficulty := none
        source := some "path"
        category := none
        reasoning := some ("Next problem in your " ++ p.category ++ " progression")
        priority := some ((nprob : ℤ) + 1)
        order := none
        skills := some [p.category]
        estimated_difficulty := some d.toLower }

/-- The path-filling loop of `_fallback_mission`, threading the running
problem count; it stops at the first entry whose difficulty value is
`None` (the raised `AttributeError`). -/
def fallbackPathEntries (nprob : ℕ) : List AvailProb → Option (List RawEntry)
  | [] => some []
  | p :: rest =>
    match fallback_path_entry nprob p with
    | none => none
    | some e => (fallbackPathEntries (nprob + 1) rest).map (fun l => e :: l)

/-- Objective selection of `_fallback_mission` (lines 540-546). -/
def fallbackObjective (ctx : FallbackCtx) (review_problems : List ReviewProb) : String :=
  match ctx.skill_scores.filter (fun s => s.status = "weak") with
  | s :: _ => "Strengthen " ++ s.domain
  | [] =>
    if review_problems ≠ [] then "Review and consolidate"
    else "Continue learning path progress"

/-- Pacing selection of `_fallback_mission` (lines 548-558); note the
truthiness test `if context.get("days_until_deadline")`, under which a
deadline exactly today (0 days) keeps the defaults. -/
def fallbackPacing (ctx : FallbackCtx) : String × String :=
  match truthyInt ctx.days_until_deadline with
  | some days =>
    if days < 14 then
      ("critical", "Only " ++ toString days ++ " days until deadline - increase daily practice")
    else if days < 30 then
      ("behind", toString days ++ " days remaining - stay focused")
    else ("on_track", "Keep up the consistent practice!")
  | none => ("on_track", "Keep up the consistent practice!")

/-- Embedding of `_fallback_mission` (lines 507-566): up to 2 review
entries, then path entries up to 5 problems in total.  The result is
`none` exactly when the Python code raises (difficulty value `None` in a
selected path problem). -/
def fallback_mission (ctx : FallbackCtx) (available_problems : List AvailProb)
    (review_problems : List ReviewProb) : Option GenResponse :=
  let revEntries := (review_problems.take 2).enum.map
    (fun ir => fallback_review_entry ir.1 ir.2)
  let remaining := 5 - revEntries.length
  match fallbackPathEntries revEntries.length (available_problems.take remaining) with
  | none => none
  | some pathEntries =>
    let pacing := fallbackPacing ctx
    some
      { daily_objective := some (fallbackObjective ctx review_problems)
        problems := revEntries ++ pathEntries
        main_quests := []
        side_quests := []
        balance_explanation := some "Balanced mix of reviews and new path problems"
        pacing_status := some pacing.1
        pacing_note := some pacing.2 }

/-- Outcome of the external generator call: a parsed response, or any
failure (timeout, exception, unparseable output). -/
inductive GeminiOutcome where
  | ok (resp : GenResponse)
  | failed (msg : String)
deriving DecidableEq

/-- Embedding of `_call_gemini` (lines 342-389): when the gateway is not
configured or the call/parsing fails, fall back to `_fallback_mission`.
A `none` result models an exception escaping to the caller. -/
def call_gemini (configured : Bool) (outcome : GeminiOutcome) (ctx : FallbackCtx)
    (available_problems : List AvailProb) (review_problems : List ReviewProb) :
    Option GenResponse :=
  if configured = false then fallback_mission ctx available_problems review_problems
  else
    match outcome with
    | .ok resp => some resp
    | .failed _ => fallback_mission ctx available_problems review_problems

end MissionGenerator

namespace LanguageRouter

/-- Row of the `language_review_queue` table (the
`system_design_review_queue` rows have the same shape plus a source
session id). -/
structure LangReviewRow where
  user_id : String
  track_id : Option String
  topic : String
  reason : String
  priority : ℤ
  interval_days : ℤ
  next_review : ℤ
deriving DecidableEq

/-- Columns supplied by the flagging upsert payload in
`language.py` `grade_attempt` (lines 372-379). -/
structure FlagPayload where
  user_id : String
  track_id : Option String
  topic : String
  reason : String
  priority : ℤ
  interval_days : ℤ
deriving DecidableEq

/-- Key match for `on_conflict="user_id,topic"`. -/
def keyMatch (p : FlagPayload) (r : LangReviewRow) : Prop :=
  r.user_id = p.user_id ∧ r.topic = p.topic

instance (p : FlagPayload) (r : LangReviewRow) : Decidable (keyMatch p r) :=
  inferInstanceAs (Decidable (_ ∧ _))

/-- PostgREST upsert with `on_conflict="user_id,topic"` (merge-duplicates):
rows matching the conflict key get every supplied column overwritten and
keep the columns the payload does not carry (here `next_review`); when no
row matches, a new row is inserted with the table default for
`next_review`. -/
def upsert_on_conflict_user_topic (table : List LangReviewRow) (p : FlagPayload)
    (defaultNextReview : ℤ) : List LangReviewRow :=
  if table.any (fun r => decide (keyMatch p r)) then
    table.map (fun r =>
      if keyMatch p r then
        { r with
          track_id := p.track_id
          reason := p.reason
          priority := p.priority
          interval_days := p.interval_days }
      else r)
  else
    table ++ [{ user_id := p.user_id, track_id := p.track_id, topic := p.topic,
                reason := p.reason, priority := p.priority,
                interval_days := p.interval_days, next_review := defaultNextReview }]

/-- Effect of `grade_attempt` (language.py lines 367-381) on the
`language_review_queue` table: when the grading score is below 7, upsert
the topic with reason, priority 1 and interval_days 1 on conflict key
(user_id, topic). -/
def grade_attempt_review_effect (table : List LangReviewRow) (user_id : String)
    (track_id : Option String) (topic exercise_type : String) (score : ℤ)
    (defaultNextReview : ℤ) : List LangReviewRow :=
  if score < 7 then
    upsert_on_conflict_user_topic table
      { user_id := user_id
        track_id := track_id
        topic := topic
        reason := "Weak area from " ++ exercise_type ++ " exercise on " ++ topic
        priority := 1
        interval_days := 1 }
      defaultNextReview
  else table

end LanguageRouter

namespace Fixtures

/-- Due review row: priority 5, due at instant 1. -/
def rowA : Reviews.ReviewRow :=
  { problem_slug := "two-sum", problem_title := none, reason := some "failed on edge cases",
    next_review := 1, interval_days := 1, priority := 5 }

/-- Due review row: priority 1, due at instant 0. -/
def rowB : Reviews.ReviewRow :=
  { problem_slug := "valid-anagram", problem_title := none, reason := none,
    next_review := 0, interval_days := 2, priority := 1 }

/-- Due review row: priority 5, due at instant 0. -/
def rowC : Reviews.ReviewRow :=
  { problem_slug := "3sum", problem_title := none, reason := none,
    next_review := 0, interval_days := 4, priority := 5 }

/-- Review row that is not yet due at instant 10. -/
def rowFuture : Reviews.ReviewRow :=
  { problem_slug := "lru-cache", problem_title := none, reason := none,
    next_review := 25, interval_days := 8, priority := 9 }

/-- A language review-queue row with an advanced schedule
(interval 4, next review at instant 100). -/
def langRow : LanguageRouter.LangReviewRow :=
  { user_id := "u1", track_id := some "t-fr", topic := "passe-compose",
    reason := "r1", priority := 2, interval_days := 4, next_review := 100 }

/-- The flagging payload `grade_attempt` builds for the same key. -/
def flagP : LanguageRouter.FlagPayload :=
  { user_id := "u1", track_id := none, topic := "passe-compose",
    reason := "Weak area from essay exercise on passe-compose",
    priority := 1, interval_days := 1 }

/-- Empty generator response. -/
def resp0 : MissionGenerator.GenResponse :=
  { daily_objective := none, problems := [], main_quests := [], side_quests := [],
    balance_explanation := none, pacing_status := none, pacing_note := none }

/-- No path details available. -/
def details0 : String → Option MissionGenerator.PDetail := fun _ => none

/-- Stored mission already regenerated three times. -/
def mission3 : MissionGenerator.StoredMission :=
  { daily_objective := "Focus on practice", balance_explanation := none,
    pacing_status := none, pacing_note := none, problems := [],
    main_quests := [], side_quests := [], regenerated_count := 3 }

/-- Freshly generated stored mission. -/
def mission0 : MissionGenerator.StoredMission :=
  { daily_objective := "Focus on practice", balance_explanation := none,
    pacing_status := none, pacing_note := none, problems := [],
    main_quests := [], side_quests := [], regenerated_count := 0 }

/-- Legacy-shape entry per the spec example: slug "a", title "A",
order 1, category "X". -/
def legacyEntry : MissionGenerator.RawEntry :=
  { problem_id := none, slug := some "a", title := some "A", difficulty := none,
    source := none, category := some "X", reasoning := none, priority := none,
    order := some 1, skills := none, estimated_difficulty := none }

/-- Generator response with only a `main_quests` list. -/
def respLegacy : MissionGenerator.GenResponse :=
  { daily_objective := some "Practice fundamentals", problems := [],
    main_quests := [legacyEntry], side_quests := [],
    balance_explanation := some "100% path", pacing_status := some "on_track",
    pacing_note := some "Good" }

/-- Canonical entry whose `order` is negative and whose `priority` is
absent. -/
def negOrderEntry : MissionGenerator.RawEntry :=
  { problem_id := some "a", slug := none, title := none, difficulty := none,
    source := none, category := none, reasoning := none, priority := none,
    order := some (-1), skills := none, estimated_difficulty := none }

/-- Generator response containing `negOrderEntry`. -/
def respNeg : MissionGenerator.GenResponse :=
  { resp0 with problems := [negOrderEntry] }

/-- Entry carrying only a `problem_id`. -/
def plainEntry : MissionGenerator.RawEntry :=
  { problem_id := some "x", slug := none, title := none, difficulty := none,
    source := none, category := none, reasoning := none, priority := none,
    order := none, skills := none, estimated_difficulty := none }

/-- Entry carrying neither `problem_id` nor `slug`. -/
def idlessEntry : MissionGenerator.RawEntry :=
  { problem_id := none, slug := none, title := some "Ghost", difficulty := none,
    source := none, category := none, reasoning := none, priority := none,
    order := none, skills := none, estimated_difficulty := none }

/-- Generator response with one keepable and one skipped entry. -/
def respW : MissionGenerator.GenResponse :=
  { resp0 with problems := [plainEntry, idlessEntry] }

/-- Fallback context without skills or deadline. -/
def ctx0 : MissionGenerator.FallbackCtx :=
  { skill_scores := [], days_until_deadline := none }

/-- Available path problem carrying a difficulty value. -/
def availA : MissionGenerator.AvailProb :=
  { slug := "p1", title := "P1", difficulty := some "Easy", category := "Arrays" }

/-- Available path problem whose path data has no difficulty
(`prob.get("difficulty")` is `None`). -/
def availNoDiff : MissionGenerator.AvailProb :=
  { slug := "p2", title := "P2", difficulty := none, category := "Arrays" }

/-- Due review as seen by the recommendation engine counterexample. -/
def recReview : Reviews.ReviewRow :=
  { problem_slug := "two-sum", problem_title := none, reason := some "failed on edge cases",
    next_review := 0, interval_days := 1, priority := 5 }

/-- Weak skill row for the counterexample. -/
def weakArrays : RecommendationEngine.SkillRow := { tag := "arrays", score := 50 }

/-- A failed submission on the same problem, tagged with the weak skill. -/
def failedTwoSum : RecommendationEngine.Submission :=
  { problem_slug := "two-sum", problem_title := none, difficulty := some "Medium",
    tags := ["arrays"] }

/-- Most-recent-failed lookup for the counterexample. -/
def latestFailed0 : String → Option RecommendationEngine.Submission :=
  fun t => if t = "arrays" then some failedTwoSum else none

/-- Empty difficulty statistics. -/
def stats0 : RecommendationEngine.DiffStats :=
  { easy := { accepted := 0, total := 0 }, medium := { accepted := 0, total := 0 },
    hard := { accepted := 0, total := 0 } }

end Fixtures

section PacingTheorems

lemma paceStatusOf_ahead_iff (p : ℚ) :
    Objectives.paceStatusOf p = "ahead" ↔ 110 ≤ p := by
  unfold Objectives.paceStatusOf
  split_ifs with h1 h2 h3
  · exact iff_of_true rfl h1
  · exact iff_of_false (by decide) h1
  · exact iff_of_false (by decide) h1
  · exact iff_of_false (by decide) h1

lemma paceStatusOf_on_track_iff (p : ℚ) :
    Objectives.paceStatusOf p = "on_track" ↔ 90 ≤ p ∧ p < 110 := by
  unfold Objectives.paceStatusOf
  split_ifs with h1 h2 h3
  · exact iff_of_false (by decide) (fun h => absurd h1 (not_le.mpr h.2))
  · exact iff_of_true rfl ⟨h2, not_le.mp h1⟩
  · exact iff_of_false (by decide) (fun h => h2 h.1)
  · exact iff_of_false (by decide) (fun h => h2 h.1)

lemma paceStatusOf_behind_iff (p : ℚ) :
    Objectives.paceStatusOf p = "behind" ↔ 70 ≤ p ∧ p < 90 := by
  unfold Objectives.paceStatusOf
  split_ifs with h1 h2 h3
  · exact iff_of_false (by decide) (fun h => absurd (le_trans (by norm_num) h1) (not_le.mpr h.2))
  · exact iff_of_false (by decide) (fun h => absurd h2 (not_le.mpr h.2))
  · exact iff_of_true rfl ⟨h3, not_le.mp h2⟩
  · exact iff_of_false (by decide) (fun h => h3 h.1)

lemma paceStatusOf_critical_iff (p : ℚ) :
    Objectives.paceStatusOf p = "critical" ↔ p < 70 := by
  unfold Objectives.paceStatusOf
  split_ifs with h1 h2 h3
  · exact iff_of_false (by decide) (not_lt.mpr (le_trans (by norm_num) h1))
  · exact iff_of_false (by decide) (not_lt.mpr (le_trans (by norm_num) h2))
  · exact iff_of_false (by decide) (not_lt.mpr h3)
  · exact iff_of_true rfl (not_le.mp h3)

/-- C4: the pacing status classification is a total function of the pace
percentage with inclusive lower bounds: "ahead" iff at least 110,
"on_track" iff in [90, 110), "behind" iff in [70, 90), "critical" iff
below 70; and `calculate_pace_status` classifies exactly this way on the
pace percentage it computes. -/
theorem C4_pace_status_classification :
    (∀ p : ℚ,
      (Objectives.paceStatusOf p = "ahead" ↔ 110 ≤ p)
      ∧ (Objectives.paceStatusOf p = "on_track" ↔ 90 ≤ p ∧ p < 110)
      ∧ (Objectives.paceStatusOf p = "behind" ↔ 70 ≤ p ∧ p < 90)
      ∧ (Objectives.paceStatusOf p = "critical" ↔ p < 70))
    ∧ (∀ started_at target_deadline weekly_target today cumulative pw,
        (Objectives.calculate_pace_status started_at target_deadline weekly_target
            today cumulative pw).status =
          Objectives.paceStatusOf (Objectives.pace_percentage_of cumulative
            (Objectives.expected_problems
              (Objectives.days_elapsed today started_at)
              (Objectives.days_total target_deadline started_at)
              (Objectives.total_problems_target weekly_target
                (Objectives.days_total target_deadline started_at))))) := by
  refine ⟨fun p => ⟨paceStatusOf_ahead_iff p, paceStatusOf_on_track_iff p,
    paceStatusOf_behind_iff p, paceStatusOf_critical_iff p⟩, ?_⟩
  intro s d w t c pw
  rfl

/-- C5: every divisor appearing in the pacing computation is at least 1
(`days_total`, `days_elapsed`, `max(1, expected_problems)`,
`max(1, days_remaining)`), and in the degenerate case
`target_deadline = started_at = today` with a positive weekly target the
computation yields `days_total = 1` and `days_elapsed = 1`. -/
theorem C5_pacing_division_safety :
    ∀ started_at target_deadline weekly_target today cumulative : ℤ,
      1 ≤ Objectives.days_elapsed today started_at
      ∧ 1 ≤ Objectives.days_total target_deadline started_at
      ∧ 1 ≤ max 1 (Objectives.expected_problems
          (Objectives.days_elapsed today started_at)
          (Objectives.days_total target_deadline started_at)
          (Objectives.total_problems_target weekly_target
            (Objectives.days_total target_deadline started_at)))
      ∧ 1 ≤ max 1 (Objectives.days_remaining target_deadline today)
      ∧ 0 ≤ Objectives.days_remaining target_deadline today
      ∧ (target_deadline = started_at → started_at = today → 0 < weekly_target →
          Objectives.days_total target_deadline started_at = 1
          ∧ Objectives.days_elapsed today started_at = 1) := by
  intro s d w t c
  refine ⟨le_max_left _ _, le_max_left _ _, le_max_left _ _, le_max_left _ _,
    le_max_left _ _, ?_⟩
  intro h1 h2 _
  constructor
  · simp [Objectives.days_total, h1]
  · simp [Objectives.days_elapsed, h1, h2]

/-- Witness for C5 at `started_at = target_deadline = today = 0`,
`weekly_target = 25`. -/
theorem C5_pacing_division_safety_witness :
    Objectives.days_total 0 0 = 1 ∧ Objectives.days_elapsed 0 0 = 1 :=
  (C5_pacing_division_safety 0 0 25 0 3).2.2.2.2.2 rfl rfl (by decide)

end PacingTheorems

section IntervalTheorems

/-- C6: a successful review doubles the interval capped at 30, a failed
review resets it to 1 regardless of the prior value, and along any
sequence of consecutive successes started at a valid interval (between 1
and 30) the interval is non-decreasing and stays between 1 and 30. -/
theorem C6_interval_advance :
    (∀ i : ℤ, IntervalModel.advance true i = min (i * 2) 30)
    ∧ (∀ i : ℤ, IntervalModel.advance false i = 1)
    ∧ (∀ i0 : ℤ, 1 ≤ i0 → i0 ≤ 30 →
        (∀ n : ℕ, IntervalModel.successSeq i0 n ≤ IntervalModel.successSeq i0 (n + 1))
        ∧ (∀ n : ℕ, 1 ≤ IntervalModel.successSeq i0 n
            ∧ IntervalModel.successSeq i0 n ≤ 30)) := by
  refine ⟨fun i => rfl, fun i => rfl, ?_⟩
  intro i0 h1 h30
  have bounds : ∀ n : ℕ, 1 ≤ IntervalModel.successSeq i0 n
      ∧ IntervalModel.successSeq i0 n ≤ 30 := by
    intro n
    induction n with
    | zero => exact ⟨h1, h30⟩
    | succ k ih =>
      have : IntervalModel.successSeq i0 (k + 1) =
          min (IntervalModel.successSeq i0 k * 2) 30 := rfl
      rw [this]
      constructor
      · exact le_min (by linarith [ih.1]) (by norm_num)
      · exact min_le_right _ _
  refine ⟨?_, bounds⟩
  intro n
  have h := bounds n
  have : IntervalModel.successSeq i0 (n + 1) =
      min (IntervalModel.successSeq i0 n * 2) 30 := rfl
  rw [this]
  exact le_min (by linarith [h.1]) h.2

/-- Witness for C6: starting from interval 1, five successes reach the cap
(1, 2, 4, 8, 16, 30), the trajectory is non-decreasing and bounded by 30,
and a failure from 30 resets to 1. -/
theorem C6_interval_advance_witness :
    IntervalModel.advance false 30 = 1
    ∧ IntervalModel.successSeq 1 4 ≤ IntervalModel.successSeq 1 5
    ∧ IntervalModel.successSeq 1 5 ≤ 30
    ∧ IntervalModel.successSeq 1 5 = 30
    ∧ IntervalModel.successSeq 1 6 = 30 :=
  ⟨C6_interval_advance.2.1 30,
   (C6_interval_advance.2.2 1 (by decide) (by decide)).1 4,
   ((C6_interval_advance.2.2 1 (by decide) (by decide)).2 5).2,
   by decide, by decide⟩

end IntervalTheorems

section DueQueryTheorems

/-- C9: the due query returns only rows with `next_review <= now`, sorted
by priority descending with ties broken by `next_review` ascending; on the
concrete rows with priorities [5, 1, 5] and due instants [1, 0, 0] the two
priority-5 rows come first, the earlier-due one leading. -/
theorem C9_due_query_order :
    (∀ (items : List Reviews.ReviewRow) (now : ℤ) (limit : ℕ),
      (∀ r ∈ Reviews.get_due_reviews items now limit, r.next_review ≤ now)
      ∧ List.Sorted Reviews.dueLE (Reviews.get_due_reviews items now limit))
    ∧ Reviews.get_due_reviews [Fixtures.rowA, Fixtures.rowB, Fixtures.rowC, Fixtures.rowFuture] 10 10 =
        [Fixtures.rowC, Fixtures.rowA, Fixtures.rowB] := by
  constructor
  · intro items now limit
    constructor
    · intro r hr
      have h1 : r ∈ List.insertionSort Reviews.dueLE
          (items.filter (fun x => decide (x.next_review ≤ now))) :=
        List.mem_of_mem_take hr
      have h2 := (List.mem_insertionSort Reviews.dueLE).mp h1
      have h3 := List.of_mem_filter h2
      exact of_decide_eq_true h3
    · exact List.Pairwise.sublist (List.take_sublist _ _)
        (List.sorted_insertionSort Reviews.dueLE _)
  · decide

/-- Witness for C9 at the concrete rows: the head of the result is due. -/
theorem C9_due_query_order_witness :
    Fixtures.rowC.next_review ≤ 10 :=
  (C9_due_query_order.1 [Fixtures.rowA, Fixtures.rowB, Fixtures.rowC, Fixtures.rowFuture] 10 10).1
    Fixtures.rowC (by decide)

end DueQueryTheorems

section UpsertTheorems

/-- C7 counterexample: the claim says the upsert leaves `interval_days`
untouched, but re-flagging the key (u1, passe-compose) whose row had
`interval_days = 4` leaves a single row with `interval_days = 1` (the
payload value), while `next_review` keeps its prior value 100. -/
theorem C7_upsert_counterexample :
    (LanguageRouter.grade_attempt_review_effect [Fixtures.langRow] "u1" none
        "passe-compose" "essay" 3 200).map (fun r => r.interval_days) = [1]
    ∧ Fixtures.langRow.interval_days = 4
    ∧ (LanguageRouter.grade_attempt_review_effect [Fixtures.langRow] "u1" none
        "passe-compose" "essay" 3 200).map (fun r => r.next_review) = [100] := by
  decide

/-- C7 amended: on a key that already has an item, the flagging upsert
overwrites the supplied columns — `reason`, `priority`, `track_id` and
`interval_days` (reset to 1 by the payload) — while `next_review` keeps
the value it had before the call, and exactly one item exists for that
(user, key) afterwards when at most one existed before. -/
theorem C7_upsert_amended :
    ∀ (table : List LanguageRouter.LangReviewRow) (p : LanguageRouter.FlagPayload)
      (d : ℤ),
      (table.countP (fun r => decide (LanguageRouter.keyMatch p r)) ≤ 1 →
        (LanguageRouter.upsert_on_conflict_user_topic table p d).countP
          (fun r => decide (LanguageRouter.keyMatch p r)) = 1)
      ∧ (∀ r ∈ table, LanguageRouter.keyMatch p r →
          { r with
            track_id := p.track_id
            reason := p.reason
            priority := p.priority
            interval_days := p.interval_days } ∈
            LanguageRouter.upsert_on_conflict_user_topic table p d)
      ∧ (∀ user track topic ex score dd, score < 7 →
          LanguageRouter.grade_attempt_review_effect table user track topic ex score dd =
            LanguageRouter.upsert_on_conflict_user_topic table
              { user_id := user, track_id := track, topic := topic,
                reason := "Weak area from " ++ ex ++ " exercise on " ++ topic,
                priority := 1, interval_days := 1 } dd) := by
  intro table p d
  refine ⟨?_, ?_, ?_⟩
  · intro hle
    by_cases hany : table.any (fun r => decide (LanguageRouter.keyMatch p r))
    · rw [LanguageRouter.upsert_on_conflict_user_topic, if_pos hany]
      rw [List.countP_map]
      have heq : table.countP
          ((fun r => decide (LanguageRouter.keyMatch p r)) ∘
            (fun r => if LanguageRouter.keyMatch p r then
              { r with
                track_id := p.track_id
                reason := p.reason
                priority := p.priority
                interval_days := p.interval_days }
              else r)) =
          table.countP (fun r => decide (LanguageRouter.keyMatch p r)) := by
        apply List.countP_congr
        intro r _
        simp only [Function.comp]
        split_ifs with h
        · simp [LanguageRouter.keyMatch]
        · exact Iff.rfl
      rw [heq]
      have hpos : 0 < table.countP (fun r => decide (LanguageRouter.keyMatch p r)) := by
        rw [List.countP_pos_iff]
        obtain ⟨r, hr, hdr⟩ := List.any_eq_true.mp hany
        exact ⟨r, hr, hdr⟩
      omega
    · rw [LanguageRouter.upsert_on_conflict_user_topic, if_neg hany]
      rw [List.countP_append]
      have h0 : table.countP (fun r => decide (LanguageRouter.keyMatch p r)) = 0 := by
        rw [List.countP_eq_zero]
        intro r hr hdr
        exact hany (List.any_eq_true.mpr ⟨r, hr, hdr⟩)
      rw [h0]
      simp [LanguageRouter.keyMatch]
  · intro r hr hkr
    have hany : table.any (fun r => decide (LanguageRouter.keyMatch p r)) = true :=
      List.any_eq_true.mpr ⟨r, hr, decide_eq_true hkr⟩
    rw [LanguageRouter.upsert_on_conflict_user_topic, if_pos hany]
    have : ({ r with
        track_id := p.track_id
        reason := p.reason
        priority := p.priority
        interval_days := p.interval_days } :
          LanguageRouter.LangReviewRow) =
        (fun x => if LanguageRouter.keyMatch p x then
          { x with
            track_id := p.track_id
            reason := p.reason
            priority := p.priority
            interval_days := p.interval_days }
          else x) r := by
      simp [hkr]
    rw [this]
    exact List.mem_map_of_mem _ hr
  · intro user track topic ex score dd hscore
    rw [LanguageRouter.grade_attempt_review_effect, if_pos hscore]

/-- Witness for C7 amended at the concrete row and payload: one row for
the key remains, and the overwritten row (with `next_review` still 100)
is in the table. -/
theorem C7_upsert_amended_witness :
    (LanguageRouter.upsert_on_conflict_user_topic [Fixtures.langRow] Fixtures.flagP 200).countP
      (fun r => decide (LanguageRouter.keyMatch Fixtures.flagP r)) = 1
    ∧ { Fixtures.langRow with
        track_id := Fixtures.flagP.track_id
        reason := Fixtures.flagP.reason
        priority := Fixtures.flagP.priority
        interval_days := Fixtures.flagP.interval_days } ∈
        LanguageRouter.upsert_on_conflict_user_topic [Fixtures.langRow] Fixtures.flagP 200
    ∧ LanguageRouter.grade_attempt_review_effect [Fixtures.langRow] "u1" none
        "passe-compose" "essay" 3 200 =
      LanguageRouter.upsert_on_conflict_user_topic [Fixtures.langRow]
        { user_id := "u1", track_id := none, topic := "passe-compose",
          reason := "Weak area from essay exercise on passe-compose",
          priority := 1, interval_days := 1 } 200 :=
  ⟨(C7_upsert_amended [Fixtures.langRow] Fixtures.flagP 200).1 (by decide),
   (C7_upsert_amended [Fixtures.langRow] Fixtures.flagP 200).2.1 Fixtures.langRow
     (by decide) (by decide),
   (C7_upsert_amended [Fixtures.langRow] Fixtures.flagP 200).2.2 "u1" none
     "passe-compose" "essay" 3 200 (by decide)⟩

end UpsertTheorems

section MergerTheorems

unseal Rat.sub Rat.add Rat.mul Rat.inv in
/-- C8 counterexample: a problem that is both due for review and the
weak-skill candidate of a weak tag appears twice in the merged
recommendation list — once attributed to review_queue and once to
weak_skill — because `_get_weak_skill_problems` deduplicates only against
its own local list. -/
theorem C8_merger_dedup_counterexample :
    (RecommendationEngine.get_recommendations [Fixtures.recReview] 0 [Fixtures.weakArrays]
        Fixtures.latestFailed0 Fixtures.stats0 (fun _ => []) 5).map
      (fun r => (r.problem_slug, r.source)) =
      [("two-sum", "review_queue"), ("two-sum", "weak_skill")]
    ∧ (RecommendationEngine.get_recommendations [Fixtures.recReview] 0 [Fixtures.weakArrays]
        Fixtures.latestFailed0 Fixtures.stats0 (fun _ => []) 5).countP
      (fun r => decide (r.problem_slug = "two-sum")) = 2 := by
  decide

lemma weakSkillLoop_nodup (f : String → Option RecommendationEngine.Submission)
    (limit : ℕ) (skills : List RecommendationEngine.SkillRow) :
    ∀ (acc : List RecommendationEngine.RecommendedProblem),
      (acc.map (fun r => r.problem_slug)).Nodup →
      ((RecommendationEngine.weakSkillLoop f limit skills acc).map
        (fun r => r.problem_slug)).Nodup := by
  induction skills with
  | nil =>
    intro acc h
    simpa [RecommendationEngine.weakSkillLoop] using h
  | cons s rest ih =>
    intro acc h
    rw [RecommendationEngine.weakSkillLoop]
    split_ifs with h70
    · exact ih acc h
    · cases hfs : f s.tag with
      | none =>
        simp only [hfs]
        split_ifs with hlim
        · exact h
        · exact ih acc h
      | some prob =>
        simp only [hfs]
        by_cases hin : acc.any (fun r => decide (r.problem_slug = prob.problem_slug))
        · simp only [hin, if_true]
          split_ifs with hlim
          · exact h
          · exact ih acc h
        · simp only [Bool.not_eq_true] at hin
          simp only [hin, Bool.false_eq_true, if_false]
          have hnotmem : prob.problem_slug ∉ acc.map (fun r => r.problem_slug) := by
            intro hmem
            obtain ⟨r, hr, hslug⟩ := List.mem_map.mp hmem
            have : acc.any (fun r => decide (r.problem_slug = prob.problem_slug)) = true :=
              List.any_eq_true.mpr ⟨r, hr, decide_eq_true hslug⟩
            rw [hin] at this
            exact Bool.false_ne_true this
          have hnd : ((acc ++ [RecommendationEngine.mkWeakRec s prob]).map
              (fun r => r.problem_slug)).Nodup := by
            rw [List.map_append]
            rw [List.nodup_append]
            refine ⟨h, List.nodup_singleton _, ?_⟩
            intro x hx hx2
            simp only [RecommendationEngine.mkWeakRec, List.map_cons, List.map_nil,
              List.mem_singleton] at hx2
            rw [hx2] at hx
            exact hnotmem hx
          split_ifs with hlim
          · exact hnd
          · exact ih _ hnd

lemma progressionLoop_slug_prop (diff : String)
    (l : List RecommendationEngine.Submission) :
    ∀ (seen : List String),
      ((RecommendationEngine.progressionLoop diff l seen).map
        (fun r => r.problem_slug)).Nodup
      ∧ ∀ x ∈ (RecommendationEngine.progressionLoop diff l seen).map
          (fun r => r.problem_slug), x ∉ seen := by
  induction l with
  | nil =>
    intro seen
    simp [RecommendationEngine.progressionLoop]
  | cons p rest ih =>
    intro seen
    rw [RecommendationEngine.progressionLoop]
    split_ifs with hmem
    · exact ih seen
    · constructor
      · simp only [List.map_cons, List.nodup_cons]
        constructor
        · intro hx
          have hx2 : (RecommendationEngine.mkProgRec diff p).problem_slug ∈
              (RecommendationEngine.progressionLoop diff rest
                (p.problem_slug :: seen)).map (fun r => r.problem_slug) := hx
          have := (ih (p.problem_slug :: seen)).2 _ hx2
          exact this (List.mem_cons_self _ _)
        · exact (ih (p.problem_slug :: seen)).1
      · intro x hx
        simp only [List.map_cons] at hx
        rcases List.mem_cons.mp hx with hx1 | hx2
        · rw [hx1]
          exact hmem
        · intro hxs
          exact (ih (p.problem_slug :: seen)).2 x hx2 (List.mem_cons_of_mem _ hxs)

/-- C8 amended: deduplication is applied within each non-review source but
not across sources — the weak-skill source never contributes the same
subject key twice and the progression source never contributes the same
subject key twice, yet a problem that is both due for review and a
weak-skill candidate appears once per source in the merged list (the
counterexample shows it listed under review_queue and under weak_skill). -/
theorem C8_merger_dedup_amended :
    (∀ (weakSkills : List RecommendationEngine.SkillRow)
       (f : String → Option RecommendationEngine.Submission) (limit : ℕ),
      ((RecommendationEngine.get_weak_skill_problems weakSkills f limit).map
        (fun r => r.problem_slug)).Nodup)
    ∧ (∀ (stats : RecommendationEngine.DiffStats)
         (attemptedAt : String → List RecommendationEngine.Submission) (limit : ℕ),
      ((RecommendationEngine.get_progression_problems stats attemptedAt limit).map
        (fun r => r.problem_slug)).Nodup) :=
  ⟨fun weakSkills f limit =>
    weakSkillLoop_nodup f limit weakSkills [] (by simp),
   fun stats attemptedAt limit =>
    (progressionLoop_slug_prop (RecommendationEngine.determine_progression_difficulty stats)
      ((attemptedAt (RecommendationEngine.determine_progression_difficulty stats)).take limit)
      []).1⟩

end MergerTheorems

section MissionTheorems

/-- C1: on a regenerate request for an existing mission, if the mission's
`regenerated_count` is at least 3 the existing mission is returned
unchanged (enriched exactly as a plain get would) with
`can_regenerate = false` and nothing is saved; otherwise generation is
re-run, the saved mission's `regenerated_count` is the old count plus one,
and the returned `can_regenerate` flag always equals
`regenerated_count < 3` of the resulting stored mission. -/
theorem C1_regeneration_cap :
    ∀ (m : MissionGenerator.StoredMission) (resp : MissionGenerator.GenResponse)
      (details : String → Option MissionGenerator.PDetail) (completedToday : List String),
      (3 ≤ m.regenerated_count →
        MissionGenerator.generate_mission (some m) true resp details completedToday =
          ({ MissionGenerator.enrich_mission m completedToday with can_regenerate := false },
            none))
      ∧ (m.regenerated_count < 3 →
          (MissionGenerator.generate_mission (some m) true resp details completedToday).2 =
              some (MissionGenerator.build_mission_data resp details (some m))
            ∧ (MissionGenerator.build_mission_data resp details (some m)).regenerated_count =
                m.regenerated_count + 1)
      ∧ (MissionGenerator.generate_mission (some m) true resp details completedToday).1.can_regenerate =
          decide ((((MissionGenerator.generate_mission (some m) true resp details
              completedToday).2).getD m).regenerated_count < 3) := by
  intro m resp details completedToday
  by_cases h : 3 ≤ m.regenerated_count
  · refine ⟨fun _ => ?_, fun h2 => absurd h (by omega), ?_⟩
    · simp [MissionGenerator.generate_mission, h]
    · simp [MissionGenerator.generate_mission, h]
  · refine ⟨fun h2 => absurd h2 h, fun _ => ?_, ?_⟩
    · exact ⟨by simp [MissionGenerator.generate_mission, h], rfl⟩
    · simp [MissionGenerator.generate_mission, h, MissionGenerator.enrich_mission]

/-- Witness for C1: with a mission at the cap the regenerate request
returns it unchanged with the flag off; below the cap the saved count is
incremented. -/
theorem C1_regeneration_cap_witness :
    MissionGenerator.generate_mission (some Fixtures.mission3) true Fixtures.resp0
        Fixtures.details0 [] =
      ({ MissionGenerator.enrich_mission Fixtures.mission3 [] with can_regenerate := false },
        none)
    ∧ (MissionGenerator.build_mission_data Fixtures.resp0 Fixtures.details0
        (some Fixtures.mission0)).regenerated_count = 1 :=
  ⟨(C1_regeneration_cap Fixtures.mission3 Fixtures.resp0 Fixtures.details0 []).1 (by decide),
   ((C1_regeneration_cap Fixtures.mission0 Fixtures.resp0 Fixtures.details0 []).2.1
     (by decide)).2⟩

lemma truthyStr_ne_empty {x : Option String} {s : String}
    (h : truthyStr x = some s) : s ≠ "" := by
  cases x with
  | none => exact absurd h (by simp [truthyStr])
  | some t =>
    by_cases ht : t = ""
    · simp [truthyStr, ht] at h
    · simp only [truthyStr, if_neg ht] at h
      obtain rfl : t = s := Option.some_inj.mp h
      exact ht

lemma buildEntry_isSome (d : String → Option MissionGenerator.PDetail) (i : ℕ)
    (e : MissionGenerator.RawEntry) :
    (MissionGenerator.buildEntry d i e).isSome =
      (truthyStr (pyOrStr e.problem_id e.slug)).isSome := by
  cases h : truthyStr (pyOrStr e.problem_id e.slug) with
  | none => simp [MissionGenerator.buildEntry, h]
  | some s => simp [MissionGenerator.buildEntry, h]

lemma buildEntry_fields (d : String → Option MissionGenerator.PDetail) (i : ℕ)
    (e : MissionGenerator.RawEntry) (q : MissionGenerator.MissionProblem)
    (h : MissionGenerator.buildEntry d i e = some q) :
    truthyStr (pyOrStr e.problem_id e.slug) = some q.problem_id
    ∧ q.problem_id ≠ ""
    ∧ q.priority = (match truthyInt e.priority with
        | some v => v
        | none =>
          match truthyInt e.order with
          | some v => v
          | none => (i : ℤ) + 1)
    ∧ q.source = (match truthyStr e.source with
        | some s => s
        | none => e.category.getD "path") := by
  cases hq : truthyStr (pyOrStr e.problem_id e.slug) with
  | none =>
    unfold MissionGenerator.buildEntry at h
    rw [hq] at h
    exact absurd h (by simp)
  | some s =>
    unfold MissionGenerator.buildEntry at h
    rw [hq] at h
    simp only [Option.some_inj] at h
    subst h
    exact ⟨rfl, truthyStr_ne_empty hq, rfl, rfl⟩

lemma priority_pos_of_nonneg (e : MissionGenerator.RawEntry) (i : ℕ)
    (hp : 0 ≤ e.priority.getD 0) (ho : 0 ≤ e.order.getD 0) :
    0 < (match truthyInt e.priority with
      | some v => v
      | none =>
        match truthyInt e.order with
        | some v => v
        | none => (i : ℤ) + 1) := by
  cases ep : e.priority with
  | some v =>
    rw [ep] at hp
    simp only [Option.getD_some] at hp
    by_cases hv : v = 0
    · subst hv
      cases eo : e.order with
      | some w =>
        rw [eo] at ho
        simp only [Option.getD_some] at ho
        by_cases hw : w = 0
        · subst hw
          simp [truthyInt]
        · simp [truthyInt, hw]
          omega
      | none =>
        simp [truthyInt]
    · simp [truthyInt, hv]
      omega
  | none =>
    cases eo : e.order with
    | some w =>
      rw [eo] at ho
      simp only [Option.getD_some] at ho
      by_cases hw : w = 0
      · subst hw
        simp [truthyInt]
      · simp [truthyInt, hw]
        omega
    | none =>
      simp [truthyInt]

lemma enum_filter_snd_length {α : Type} (pred : α → Bool) (l : List α) :
    (l.enum.filter (fun ip => pred ip.2)).length = (l.filter pred).length := by
  rw [← List.countP_eq_length_filter, ← List.countP_eq_length_filter]
  have h1 : (l.enum.map Prod.snd).countP pred = l.enum.countP (fun ip => pred ip.2) :=
    List.countP_map pred Prod.snd l.enum
  rw [← h1, List.enum_map_snd]

lemma filterMap_buildEntry_length (d : String → Option MissionGenerator.PDetail) :
    ∀ ps : List (ℕ × MissionGenerator.RawEntry),
      (ps.filterMap (fun ip => MissionGenerator.buildEntry d ip.1 ip.2)).length =
        (ps.filter (fun ip =>
          (truthyStr (pyOrStr ip.2.problem_id ip.2.slug)).isSome)).length := by
  intro ps
  induction ps with
  | nil => rfl
  | cons ip rest ih =>
    rw [List.filterMap_cons, List.filter_cons]
    have hs := buildEntry_isSome d ip.1 ip.2
    cases hbe : MissionGenerator.buildEntry d ip.1 ip.2 with
    | none =>
      rw [hbe] at hs
      simp only [Option.isSome_none] at hs
      rw [← hs]
      simpa using ih
    | some q =>
      rw [hbe] at hs
      simp only [Option.isSome_some] at hs
      rw [← hs]
      simpa using ih

/-- C2: a generator response carrying its problem list only under the
legacy `main_quests` key (entries with a slug, an order and a category,
and without the canonical fields) is normalized into the canonical
`problems` list of the built mission — slug becomes `problem_id`, order
becomes `priority`, category becomes `source` — and the persisted list is
non-empty whenever `main_quests` is non-empty. -/
theorem C2_main_quests_normalization :
    ∀ (details : String → Option MissionGenerator.PDetail)
      (resp : MissionGenerator.GenResponse),
      resp.problems = [] →
      resp.main_quests ≠ [] →
      (∀ e ∈ resp.main_quests,
        e.problem_id = none ∧ e.slug ≠ none ∧ e.slug ≠ some ""
        ∧ e.priority = none ∧ e.order ≠ none ∧ e.order ≠ some 0
        ∧ e.source = none) →
      (MissionGenerator.build_mission_data resp details none).problems ≠ []
      ∧ (MissionGenerator.build_mission_data resp details none).problems.map
          (fun q => some q.problem_id) = resp.main_quests.map (fun e => e.slug)
      ∧ (MissionGenerator.build_mission_data resp details none).problems.map
          (fun q => some q.priority) = resp.main_quests.map (fun e => e.order)
      ∧ (MissionGenerator.build_mission_data resp details none).problems.map
          (fun q => q.source) = resp.main_quests.map (fun e => e.category.getD "path") := by
  have main : ∀ (details : String → Option MissionGenerator.PDetail)
      (l : List MissionGenerator.RawEntry) (n : ℕ),
      (∀ e ∈ l,
        e.problem_id = none ∧ e.slug ≠ none ∧ e.slug ≠ some ""
        ∧ e.priority = none ∧ e.order ≠ none ∧ e.order ≠ some 0
        ∧ e.source = none) →
      ((l.enumFrom n).filterMap
          (fun ip => MissionGenerator.buildEntry details ip.1 ip.2)).map
        (fun q => some q.problem_id) = l.map (fun e => e.slug)
      ∧ ((l.enumFrom n).filterMap
          (fun ip => MissionGenerator.buildEntry details ip.1 ip.2)).map
        (fun q => some q.priority) = l.map (fun e => e.order)
      ∧ ((l.enumFrom n).filterMap
          (fun ip => MissionGenerator.buildEntry details ip.1 ip.2)).map
        (fun q => q.source) = l.map (fun e => e.category.getD "path") := by
    intro details l
    induction l with
    | nil => intro n _; exact ⟨rfl, rfl, rfl⟩
    | cons e rest ih =>
      intro n hall
      obtain ⟨hpid, hslug, hslug2, hpri, hord, hord2, hsrc⟩ :=
        hall e (List.mem_cons_self e rest)
      obtain ⟨s, hs⟩ := Option.ne_none_iff_exists.mp hslug
      obtain ⟨o, ho⟩ := Option.ne_none_iff_exists.mp hord
      have hsne : s ≠ "" := by
        intro hcon
        rw [hcon] at hs
        exact hslug2 hs.symm
      have hone : o ≠ 0 := by
        intro hcon
        rw [hcon] at ho
        exact hord2 ho.symm
      have htr : truthyStr (pyOrStr e.problem_id e.slug) = some s := by
        rw [hpid, ← hs]
        simp [pyOrStr, truthyStr, hsne]
      have hsome : (MissionGenerator.buildEntry details n e).isSome := by
        rw [buildEntry_isSome, htr]
        rfl
      obtain ⟨q, hbe⟩ := Option.isSome_iff_exists.mp hsome
      obtain ⟨hqid, _, hqpri, hqsrc⟩ := buildEntry_fields details n e q hbe
      have hqid2 : q.problem_id = s := by
        rw [htr] at hqid
        exact (Option.some_inj.mp hqid).symm
      have hqpri2 : q.priority = o := by
        rw [hqpri, hpri, ← ho]
        simp [truthyInt, hone]
      obtain ⟨ihid, ihpri, ihsrc⟩ :=
        ih (n + 1) (fun x hx => hall x (List.mem_cons_of_mem e hx))
      have hcons : (e :: rest).enumFrom n = (n, e) :: rest.enumFrom (n + 1) := rfl
      rw [hcons]
      rw [List.filterMap_cons]
      rw [hbe]
      refine ⟨?_, ?_, ?_⟩
      · rw [List.map_cons, List.map_cons, ihid, hqid2, hs]
      · rw [List.map_cons, List.map_cons, ihpri, hqpri2, ho]
      · rw [List.map_cons, List.map_cons, ihsrc, hqsrc, hsrc]
        rfl
  intro details resp h1 h2 h3
  have hraw : MissionGenerator.rawProblems resp = resp.main_quests := by
    rw [MissionGenerator.rawProblems, if_pos ⟨h1, h2⟩]
  have hbp : (MissionGenerator.build_mission_data resp details none).problems =
      (resp.main_quests.enumFrom 0).filterMap
        (fun ip => MissionGenerator.buildEntry details ip.1 ip.2) := by
    show MissionGenerator.buildProblems details resp = _
    rw [MissionGenerator.buildProblems, hraw]
    rfl
  obtain ⟨hid, hpri, hsrc⟩ := main details resp.main_quests 0 h3
  rw [hbp]
  refine ⟨?_, hid, hpri, hsrc⟩
  intro hnil
  rw [hnil] at hid
  have : resp.main_quests.map (fun e => e.slug) = [] := hid.symm
  exact h2 (List.map_eq_nil_iff.mp this)

/-- Witness for C2 at the spec's concrete example: a response whose only
content is `main_quests = [{slug: "a", title: "A", order: 1, category: "X"}]`
yields one persisted problem with `problem_id = "a"`, `priority = 1`,
`source = "X"`. -/
theorem C2_main_quests_normalization_witness :
    (MissionGenerator.build_mission_data Fixtures.respLegacy Fixtures.details0 none).problems ≠ []
    ∧ (MissionGenerator.build_mission_data Fixtures.respLegacy Fixtures.details0 none).problems.map
        (fun q => some q.problem_id) = [some "a"]
    ∧ (MissionGenerator.build_mission_data Fixtures.respLegacy Fixtures.details0 none).problems.map
        (fun q => some q.priority) = [some 1]
    ∧ (MissionGenerator.build_mission_data Fixtures.respLegacy Fixtures.details0 none).problems.map
        (fun q => q.source) = ["X"] := by
  have h := C2_main_quests_normalization Fixtures.details0 Fixtures.respLegacy rfl
    (by decide) (by decide)
  exact ⟨h.1, h.2.1, h.2.2.1, h.2.2.2⟩

/-- C10 counterexample: an entry with no `priority` field and a negative
`order` field is kept with that negative priority — Python `or` falls
through only on zero or absent values — so not every persisted entry has a
positive priority. -/
theorem C10_priority_counterexample :
    (MissionGenerator.buildProblems Fixtures.details0 Fixtures.respNeg).map
      (fun q => q.priority) = [-1]
    ∧ ¬ (∀ q ∈ MissionGenerator.buildProblems Fixtures.details0 Fixtures.respNeg,
          0 < q.priority) := by
  decide

/-- C10 amended: every persisted entry has a non-empty `problem_id`
(entries whose `problem_id` and `slug` are both absent or empty are
skipped, as the length equation states), and each kept entry's priority is
positive provided the supplied `priority` and `order` values (when
present) are non-negative — zero or absent values fall back to the
non-zero `order` and then to the positive 1-based position. -/
theorem C10_normalization_amended :
    ∀ (details : String → Option MissionGenerator.PDetail)
      (resp : MissionGenerator.GenResponse),
      (∀ q ∈ MissionGenerator.buildProblems details resp, q.problem_id ≠ "")
      ∧ (MissionGenerator.buildProblems details resp).length =
          ((MissionGenerator.rawProblems resp).filter
            (fun e => (truthyStr (pyOrStr e.problem_id e.slug)).isSome)).length
      ∧ ((∀ e ∈ MissionGenerator.rawProblems resp,
            0 ≤ e.priority.getD 0 ∧ 0 ≤ e.order.getD 0) →
          ∀ q ∈ MissionGenerator.buildProblems details resp, 0 < q.priority) := by
  intro details resp
  refine ⟨?_, ?_, ?_⟩
  · intro q hq
    obtain ⟨ip, _, hbe⟩ := List.mem_filterMap.mp hq
    exact (buildEntry_fields details ip.1 ip.2 q hbe).2.1
  · rw [MissionGenerator.buildProblems]
    rw [filterMap_buildEntry_length details]
    exact enum_filter_snd_length
      (fun e => (truthyStr (pyOrStr e.problem_id e.slug)).isSome)
      (MissionGenerator.rawProblems resp)
  · intro hnn q hq
    obtain ⟨ip, hip, hbe⟩ := List.mem_filterMap.mp hq
    have hmem : ip.2 ∈ MissionGenerator.rawProblems resp := by
      have h1 : ip.2 ∈ (MissionGenerator.rawProblems resp).enum.map Prod.snd :=
        List.mem_map_of_mem Prod.snd hip
      rw [List.enum_map_snd] at h1
      exact h1
    obtain ⟨hp, ho⟩ := hnn ip.2 hmem
    have hf := (buildEntry_fields details ip.1 ip.2 q hbe).2.2.1
    rw [hf]
    exact priority_pos_of_nonneg ip.2 ip.1 hp ho

/-- Witness for C10 amended: the response with one plain-id entry and one
id-less entry keeps exactly one problem, with non-empty id and positive
priority. -/
theorem C10_normalization_amended_witness :
    (∀ q ∈ MissionGenerator.buildProblems Fixtures.details0 Fixtures.respW,
      q.problem_id ≠ "")
    ∧ (MissionGenerator.buildProblems Fixtures.details0 Fixtures.respW).length =
        ((MissionGenerator.rawProblems Fixtures.respW).filter
          (fun e => (truthyStr (pyOrStr e.problem_id e.slug)).isSome)).length
    ∧ (MissionGenerator.buildProblems Fixtures.details0 Fixtures.respW).length = 1
    ∧ (∀ q ∈ MissionGenerator.buildProblems Fixtures.details0 Fixtures.respW,
        0 < q.priority) :=
  ⟨(C10_normalization_amended Fixtures.details0 Fixtures.respW).1,
   (C10_normalization_amended Fixtures.details0 Fixtures.respW).2.1,
   by decide,
   (C10_normalization_amended Fixtures.details0 Fixtures.respW).2.2 (by decide)⟩

lemma fallbackPathEntries_total (l : List MissionGenerator.AvailProb) :
    ∀ (n : ℕ), (∀ p ∈ l, p.difficulty ≠ none) →
      ∃ es, MissionGenerator.fallbackPathEntries n l = some es
        ∧ es.map (fun e => e.problem_id) = l.map (fun p => some p.slug)
        ∧ (∀ e ∈ es, e.source = some "path")
        ∧ es.length = l.length := by
  induction l with
  | nil =>
    intro n _
    exact ⟨[], rfl, rfl, by simp, rfl⟩
  | cons p rest ih =>
    intro n h
    obtain ⟨d, hd⟩ := Option.ne_none_iff_exists.mp (h p (List.mem_cons_self p rest))
    obtain ⟨es, hes, hmap, hsrc, hlen⟩ :=
      ih (n + 1) (fun x hx => h x (List.mem_cons_of_mem p hx))
    cases hpe : MissionGenerator.fallback_path_entry n p with
    | none =>
      unfold MissionGenerator.fallback_path_entry at hpe
      rw [← hd] at hpe
      exact absurd hpe (by simp)
    | some en =>
      have hen2 : en.problem_id = some p.slug ∧ en.source = some "path" := by
        unfold MissionGenerator.fallback_path_entry at hpe
        rw [← hd] at hpe
        simp only [Option.some_inj] at hpe
        rw [← hpe]
        exact ⟨rfl, rfl⟩
      refine ⟨en :: es, ?_, ?_, ?_, ?_⟩
      · show (match MissionGenerator.fallback_path_entry n p with
          | none => none
          | some e => (MissionGenerator.fallbackPathEntries (n + 1) rest).map
              (fun l => e :: l)) = some (en :: es)
        rw [hpe, hes]
        rfl
      · rw [List.map_cons, List.map_cons, hmap, hen2.1]
      · intro e he
        rcases List.mem_cons.mp he with he1 | he2
        · rw [he1]
          exact hen2.2
        · exact hsrc e he2
      · rw [List.length_cons, List.length_cons, hlen]

lemma fallback_mission_props (ctx : MissionGenerator.FallbackCtx)
    (avail : List MissionGenerator.AvailProb)
    (revs : List MissionGenerator.ReviewProb)
    (h : ∀ p ∈ avail, p.difficulty ≠ none) :
    ∃ resp, MissionGenerator.fallback_mission ctx avail revs = some resp
      ∧ resp.problems.length ≤ 5
      ∧ (∀ e ∈ resp.problems, e.source = some "review" ∨ e.source = some "path")
      ∧ (resp.problems.filter (fun e => decide (e.source = some "review"))).length ≤ 2
      ∧ resp.problems.map (fun e => e.problem_id) =
          (revs.take 2).map (fun r => some r.slug)
          ++ (avail.take (5 - (revs.take 2).length)).map (fun p => some p.slug) := by
  have hrevlen : ((revs.take 2).enum.map
      (fun ir => MissionGenerator.fallback_review_entry ir.1 ir.2)).length =
      (revs.take 2).length := by
    rw [List.length_map, List.enum_length]
  have hrevle : (revs.take 2).length ≤ 2 := List.length_take_le 2 revs
  obtain ⟨es, hes, hmap, hsrc, hlen⟩ :=
    fallbackPathEntries_total
      (avail.take (5 - ((revs.take 2).enum.map
        (fun ir => MissionGenerator.fallback_review_entry ir.1 ir.2)).length))
      ((revs.take 2).enum.map
        (fun ir => MissionGenerator.fallback_review_entry ir.1 ir.2)).length
      (fun x hx => h x (List.mem_of_mem_take hx))
  have hrevmap : ((revs.take 2).enum.map
      (fun ir => MissionGenerator.fallback_review_entry ir.1 ir.2)).map
        (fun e => e.problem_id) = (revs.take 2).map (fun r => some r.slug) := by
    rw [List.map_map]
    have h1 : ((fun e : MissionGenerator.RawEntry => e.problem_id) ∘
        (fun ir : ℕ × MissionGenerator.ReviewProb =>
          MissionGenerator.fallback_review_entry ir.1 ir.2)) =
        ((fun r : MissionGenerator.ReviewProb => some r.slug) ∘ Prod.snd) := rfl
    rw [h1, ← List.map_map, List.enum_map_snd]
  have hrevsrc : ∀ e ∈ (revs.take 2).enum.map
      (fun ir => MissionGenerator.fallback_review_entry ir.1 ir.2),
      e.source = some "review" := by
    intro e he
    obtain ⟨ir, _, hir⟩ := List.mem_map.mp he
    rw [← hir]
    rfl
  have hfm : MissionGenerator.fallback_mission ctx avail revs = some
      { daily_objective := some (MissionGenerator.fallbackObjective ctx revs)
        problems := ((revs.take 2).enum.map
          (fun ir => MissionGenerator.fallback_review_entry ir.1 ir.2)) ++ es
        main_quests := []
        side_quests := []
        balance_explanation := some "Balanced mix of reviews and new path problems"
        pacing_status := some (MissionGenerator.fallbackPacing ctx).1
        pacing_note := some (MissionGenerator.fallbackPacing ctx).2 } := by
    simp only [MissionGenerator.fallback_mission, hes]
  refine ⟨_, hfm, ?_, ?_, ?_, ?_⟩
  · rw [List.length_append, hlen, List.length_take]
    omega
  · intro e he
    rcases List.mem_append.mp he with he1 | he2
    · exact Or.inl (hrevsrc e he1)
    · exact Or.inr (hsrc e he2)
  · rw [List.filter_append]
    have hnil : es.filter (fun e => decide (e.source = some "review")) = [] := by
      rw [List.filter_eq_nil_iff]
      intro e he
      rw [hsrc e he]
      decide
    rw [hnil, List.append_nil]
    calc (((revs.take 2).enum.map
        (fun ir => MissionGenerator.fallback_review_entry ir.1 ir.2)).filter
          (fun e => decide (e.source = some "review"))).length
        ≤ ((revs.take 2).enum.map
            (fun ir => MissionGenerator.fallback_review_entry ir.1 ir.2)).length :=
          List.length_filter_le _ _
      _ ≤ 2 := by rw [hrevlen]; exact hrevle
  · rw [List.map_append, hrevmap, hmap, hrevlen]

/-- C3: when the generator gateway is unconfigured or the call fails, the
assembler returns the deterministic fallback mission, whose problems are
at most 2 review entries followed by path entries up to 5 total, each
sourced from reviews or path progression — provided every selected path
problem carries a difficulty value.  When the next path problem's
difficulty is None, the fallback itself raises (`None.lower()`), modelled
by the `none` result of the final conjunct: the failure does reach the
caller, contradicting the claim. -/
theorem C3_generator_failure_fallback :
    (∀ (configured : Bool) (outcome : MissionGenerator.GeminiOutcome)
       (ctx : MissionGenerator.FallbackCtx) (avail : List MissionGenerator.AvailProb)
       (revs : List MissionGenerator.ReviewProb),
      configured = false ∨ (∃ msg, outcome = .failed msg) →
      MissionGenerator.call_gemini configured outcome ctx avail revs =
        MissionGenerator.fallback_mission ctx avail revs)
    ∧ (∀ (ctx : MissionGenerator.FallbackCtx) (avail : List MissionGenerator.AvailProb)
         (revs : List MissionGenerator.ReviewProb),
        (∀ p ∈ avail, p.difficulty ≠ none) →
        ∃ resp, MissionGenerator.fallback_mission ctx avail revs = some resp
          ∧ resp.problems.length ≤ 5
          ∧ (∀ e ∈ resp.problems, e.source = some "review" ∨ e.source = some "path")
          ∧ (resp.problems.filter (fun e => decide (e.source = some "review"))).length ≤ 2
          ∧ resp.problems.map (fun e => e.problem_id) =
              (revs.take 2).map (fun r => some r.slug)
              ++ (avail.take (5 - (revs.take 2).length)).map (fun p => some p.slug))
    ∧ MissionGenerator.call_gemini false (.ok Fixtures.resp0) Fixtures.ctx0
        [Fixtures.availNoDiff] [] = none := by
  refine ⟨?_, fallback_mission_props, by decide⟩
  intro configured outcome ctx avail revs hfail
  rcases hfail with hc | ⟨msg, hm⟩
  · subst hc
    rfl
  · subst hm
    cases configured
    · rfl
    · rfl

/-- Witness for C3: a failed generator call falls back, and on an
available problem carrying a difficulty the fallback yields a structured
mission. -/
theorem C3_generator_failure_fallback_witness :
    MissionGenerator.call_gemini true (.failed "timeout") Fixtures.ctx0
        [Fixtures.availA] [] =
      MissionGenerator.fallback_mission Fixtures.ctx0 [Fixtures.availA] []
    ∧ ∃ resp, MissionGenerator.fallback_mission Fixtures.ctx0 [Fixtures.availA] [] = some resp
        ∧ resp.problems.length ≤ 5
        ∧ (∀ e ∈ resp.problems, e.source = some "review" ∨ e.source = some "path")
        ∧ (resp.problems.filter (fun e => decide (e.source = some "review"))).length ≤ 2
        ∧ resp.problems.map (fun e => e.problem_id) =
            (([] : List MissionGenerator.ReviewProb).take 2).map (fun r => some r.slug)
            ++ ([Fixtures.availA].take
                (5 - (([] : List MissionGenerator.ReviewProb).take 2).length)).map
              (fun p => some p.slug) :=
  ⟨C3_generator_failure_fallback.1 true (.failed "timeout") Fixtures.ctx0
      [Fixtures.availA] [] (Or.inr ⟨"timeout", rfl⟩),
   C3_generator_failure_fallback.2.1 Fixtures.ctx0 [Fixtures.availA] [] (by decide)⟩

end MissionTheorems
